import Mathlib

/-!
Shallow embedding of `bookwyrm/models/notification.py`.

The notification table is modelled as a list of `Notification` records together
with a fresh-primary-key counter.  Django ORM primitives used by the module are
modelled explicitly:

* `objects.filter(user=..., **kwargs)` / `get()` / `get_or_create` over the
  notification table, with `DoesNotExist` and `MultipleObjectsReturned`;
* many-to-many `add` / `remove` on the aggregation fields (set semantics);
* `save()` as an update of the row with the record's primary key;
* `delete()` / queryset `delete()` as removal of rows.

`@transaction.atomic` (present on `Notification.notify` and on the save-signal
handlers, absent on `Notification.unnotify`) is modelled by the convention that
an operation carrying the decorator returns the unchanged database whenever an
ORM exception escapes, while writes of an undecorated operation commit one by
one (see `Notification.unnotifyAfterRemove`).
-/

/-- A row of the user table.  The source attribute `local` is spelled
`is_local` because `local` is a reserved word in Lean. -/
structure User where
  id : Nat
  is_local : Bool
  user_permissions : List String
  is_superuser : Bool
  deriving DecidableEq

/-- The fields of a reply parent that `notify_user_on_mention` reads. -/
structure StatusRef where
  id : Nat
  user : User
  deriving DecidableEq

/-- A status row: author, deleted flag, reply parent and mentioned users. -/
structure Status where
  id : Nat
  user : User
  deleted : Bool
  reply_parent : Option StatusRef
  mention_users : List User
  deriving DecidableEq

/-- A favorite row: who favorited which status. -/
structure Favorite where
  user : User
  status : Status
  deriving DecidableEq

/-- A boost row: who boosted which status. -/
structure Boost where
  user : User
  boosted_status : Status
  deriving DecidableEq

/-- An import-job row. -/
structure ImportJob where
  id : Nat
  user : User
  complete : Bool
  deriving DecidableEq

/-- A report row. -/
structure Report where
  id : Nat
  deriving DecidableEq

/-- A row of the notification table, with exactly the model fields declared on
the `Notification` model: the owner, the `read` flag, the type, and the
related-entity links.  Foreign keys and many-to-many links are stored by
primary key. -/
structure Notification where
  nid : Nat
  user : Nat
  read : Bool
  notification_type : String
  related_users : List Nat
  related_groups : List Nat
  related_status : Option Nat
  related_import : Option Nat
  related_list_items : List Nat
  related_reports : List Nat
  deriving DecidableEq

/-- The notification table plus a fresh primary-key supply. -/
structure DB where
  notifications : List Notification
  next_id : Nat
  deriving DecidableEq

/-- The keyword filters the module passes to `filter` / `get_or_create`
(`notification_type=...`, `related_status=...`, `related_import=...`);
`none` means the keyword is absent from the call. -/
structure Filters where
  notification_type : Option String := none
  related_status : Option Nat := none
  related_import : Option Nat := none
  deriving DecidableEq

/-- ORM exceptions that the module's queries can raise. -/
inductive DBError where
  | DoesNotExist
  | MultipleObjectsReturned
  deriving DecidableEq

/-- Many-to-many `add`: inserts the id unless it is already linked. -/
def m2mAdd (l : List Nat) (x : Nat) : List Nat :=
  if x ∈ l then l else l ++ [x]

/-- Many-to-many `remove`: drops the id from the link set. -/
def m2mRemove (l : List Nat) (x : Nat) : List Nat :=
  l.filter (fun y => y != x)

/-- Whether a notification row matches `filter(user=uid, **f)`. -/
def matchesFilter (n : Notification) (uid : Nat) (f : Filters) : Bool :=
  (n.user == uid)
    && (match f.notification_type with
        | some t => n.notification_type == t
        | none => true)
    && (match f.related_status with
        | some s => n.related_status == some s
        | none => true)
    && (match f.related_import with
        | some j => n.related_import == some j
        | none => true)

/-- The row inserted by `create` / the create half of `get_or_create`:
keyword fields are taken from the call, everything else gets its model
default (`read=False`, empty links). -/
def mkNotification (i : Nat) (uid : Nat) (f : Filters) : Notification :=
  { nid := i
    user := uid
    read := false
    notification_type := f.notification_type.getD ""
    related_users := []
    related_groups := []
    related_status := f.related_status
    related_import := f.related_import
    related_list_items := []
    related_reports := [] }

/-- `Notification.objects.get_or_create(user=uid, **f)`: returns the unique
matching row, inserts a fresh one when none matches, and raises
`MultipleObjectsReturned` when several match. -/
def get_or_create (db : DB) (uid : Nat) (f : Filters) :
    Except DBError (Notification × DB) :=
  match db.notifications.filter (fun n => matchesFilter n uid f) with
  | [] =>
    let c := mkNotification db.next_id uid f
    .ok (c, { notifications := db.notifications ++ [c], next_id := db.next_id + 1 })
  | [n] => .ok (n, db)
  | _ => .error .MultipleObjectsReturned

/-- `save()`: write the record back over the row with its primary key. -/
def saveNotif (db : DB) (n : Notification) : DB :=
  { db with notifications := db.notifications.map (fun m => if m.nid == n.nid then n else m) }

/-- `delete()`: drop the row with the given primary key. -/
def deleteNotif (db : DB) (i : Nat) : DB :=
  { db with notifications := db.notifications.filter (fun m => !(m.nid == i)) }

/-- `get_or_create` followed by a mutation of the returned record and a write
back of the mutated record; the shared shape of `Notification.notify` and of
the report fan-out loop body. -/
def gocAndUpdate (db : DB) (uid : Nat) (f : Filters)
    (upd : Notification → Notification) : Except DBError DB :=
  match get_or_create db uid f with
  | .error e => .error e
  | .ok (n, db1) => .ok (saveNotif db1 (upd n))

/-- `notification.related_users.add(related_user)`.  The subsequent
`notification.unread = True` in the source assigns a non-model attribute (the
model field is named `read`), so it persists nothing, and `save()` writes no
field change beyond the link added here. -/
def addRelatedUser (rid : Nat) (n : Notification) : Notification :=
  { n with related_users := m2mAdd n.related_users rid }

/-- `notification.related_reports.add(instance)` in `notify_admins_on_report`. -/
def addRelatedReport (rid : Nat) (n : Notification) : Notification :=
  { n with related_reports := m2mAdd n.related_reports rid }

namespace Notification

/-- Body of `Notification.notify`: the guard, then get-or-create and the
aggregation-set update.  An `.error` result is an ORM exception escaping the
method. -/
def notifyTr (db : DB) (user related_user : User) (f : Filters) :
    Except DBError DB :=
  if !user.is_local || user.id == related_user.id then .ok db
  else gocAndUpdate db user.id f (addRelatedUser related_user.id)

/-- `Notification.notify` as observed by callers: it carries
`@transaction.atomic`, so when an exception escapes, every write is rolled
back and the database is unchanged. -/
def notify (db : DB) (user related_user : User) (f : Filters) :
    DB × Option DBError :=
  match notifyTr db user related_user f with
  | .ok db' => (db', none)
  | .error e => (db, some e)

/-- `Notification.unnotify`: look up the notification (`DoesNotExist` is
caught and swallowed, `MultipleObjectsReturned` escapes before any write),
remove the related user, and delete the row when no related users remain. -/
def unnotify (db : DB) (user related_user : User) (f : Filters) :
    DB × Option DBError :=
  match db.notifications.filter (fun n => matchesFilter n user.id f) with
  | [] => (db, none)
  | [n] =>
    let n1 := { n with related_users := m2mRemove n.related_users related_user.id }
    let db1 := saveNotif db n1
    if n1.related_users.isEmpty then (deleteNotif db1 n1.nid, none) else (db1, none)
  | _ => (db, some .MultipleObjectsReturned)

/-- The committed database state right after the `related_users.remove` write
of `unnotify` (defined when the lookup found a unique row).  `unnotify` has no
`@transaction.atomic`, so under the framework's autocommit this write is
durable on its own: an error raised before the subsequent `delete` leaves the
database in exactly this state. -/
def unnotifyAfterRemove (db : DB) (user related_user : User) (f : Filters) :
    Option DB :=
  match db.notifications.filter (fun n => matchesFilter n user.id f) with
  | [n] =>
    some (saveNotif db { n with related_users := m2mRemove n.related_users related_user.id })
  | _ => none

end Notification

/-- `notify_on_fav` (post-save of `Favorite`): notify the status author.
The handler's `@transaction.atomic()` adds nothing beyond the one inside
`notify`. -/
def notify_on_fav (db : DB) (inst : Favorite) : DB :=
  (Notification.notify db inst.status.user inst.user
    { related_status := some inst.status.id, notification_type := some "FAVORITE" }).1

/-- The `continue` condition of the mention loop: skip non-local users and,
for replies, the reply parent's author (already covered by the REPLY
notification). -/
def skipMention (inst : Status) (m : User) : Bool :=
  !m.is_local
    || (match inst.reply_parent with
        | some p => m.id == p.user.id
        | none => false)

/-- The `for mention_user in instance.mention_users.all()` loop of
`notify_user_on_mention`. -/
def mentionLoop (inst : Status) : List User → DB → Except DBError DB
  | [], db => .ok db
  | m :: rest, db =>
    if skipMention inst m then mentionLoop inst rest db
    else
      match Notification.notifyTr db m inst.user
          { notification_type := some "MENTION", related_status := some inst.id } with
      | .error e => .error e
      | .ok db1 => mentionLoop inst rest db1

/-- The reply branch of `notify_user_on_mention`: notify the reply parent's
author when that author is local and is not the status author. -/
def replyStep (db : DB) (inst : Status) : Except DBError DB :=
  match inst.reply_parent with
  | some p =>
    if !(p.user.id == inst.user.id) && p.user.is_local then
      Notification.notifyTr db p.user inst.user
        { related_status := some inst.id, notification_type := some "REPLY" }
    else .ok db
  | none => .ok db

/-- Non-deleted branch of `notify_user_on_mention`: the reply notification,
then the mention loop. -/
def mentionBody (db : DB) (inst : Status) : Except DBError DB :=
  match replyStep db inst with
  | .error e => .error e
  | .ok db1 => mentionLoop inst inst.mention_users db1

/-- `notify_user_on_mention` (post-save of any `Status` subclass): on a
deleted status, delete every notification whose `related_status` is that
status; otherwise run the reply/mention notifications.  The handler carries
`@transaction.atomic`, so an escaping exception leaves the database
unchanged. -/
def notify_user_on_mention (db : DB) (inst : Status) : DB :=
  if inst.deleted then
    { db with
      notifications := db.notifications.filter (fun n => !(n.related_status == some inst.id)) }
  else
    match mentionBody db inst with
    | .ok db' => db'
    | .error _ => db

/-- `notify_user_on_boost` (post-save of `Boost`): guard, then notify the
boosted status's author. -/
def notify_user_on_boost (db : DB) (inst : Boost) : DB :=
  if !inst.boosted_status.user.is_local
      || inst.boosted_status.user.id == inst.user.id then db
  else
    (Notification.notify db inst.boosted_status.user inst.user
      { related_status := some inst.boosted_status.id, notification_type := some "BOOST" }).1

/-- `notify_user_on_import_complete` (post-save of `ImportJob`): when the job
is complete and `"complete"` is among the saved fields, unconditionally
`Notification.objects.create(...)` a fresh IMPORT notification (note: this is
`create`, not `get_or_create`). -/
def notify_user_on_import_complete (db : DB) (inst : ImportJob)
    (update_fields : List String) : DB :=
  if !inst.complete || !(update_fields.contains "complete") then db
  else
    { notifications :=
        db.notifications ++
          [mkNotification db.next_id inst.user.id
            { notification_type := some "IMPORT", related_import := some inst.id }]
      next_id := db.next_id + 1 }

/-- The admin query of `notify_admins_on_report`: users holding the
`moderate_user` or `moderate_post` permission, or superusers. -/
def isAdminUser (u : User) : Bool :=
  u.user_permissions.any (fun p => p == "moderate_user" || p == "moderate_post")
    || u.is_superuser

/-- One iteration of the report fan-out: get-or-create the (user, REPORT)
notification and add the report to its `related_reports`. -/
def reportStep (db : DB) (admin : User) (rid : Nat) : Except DBError DB :=
  gocAndUpdate db admin.id { notification_type := some "REPORT" }
    (addRelatedReport rid)

/-- The `for admin in admins` loop of `notify_admins_on_report`. -/
def reportLoop (rid : Nat) : List User → DB → Except DBError DB
  | [], db => .ok db
  | a :: rest, db =>
    match reportStep db a rid with
    | .error e => .error e
    | .ok db1 => reportLoop rid rest db1

/-- `notify_admins_on_report` (post-save of `Report`): fan the report out to
every admin/moderator.  The handler carries `@transaction.atomic`, so an
escaping exception leaves the database unchanged. -/
def notify_admins_on_report (users : List User) (db : DB) (inst : Report) :
    DB × Option DBError :=
  match reportLoop inst.id (users.filter isAdminUser) db with
  | .ok db' => (db', none)
  | .error e => (db, some e)

/-- Well-formedness of the table: primary keys are pairwise distinct and
below the fresh-key counter. -/
def WF (db : DB) : Prop :=
  (db.notifications.map (fun n => n.nid)).Nodup
    ∧ ∀ n ∈ db.notifications, n.nid < db.next_id

instance (db : DB) : Decidable (WF db) := by
  unfold WF; infer_instance

/-- The key of claim C1: how many rows a user has of a given type with given
related status and related import. -/
def keyPred (uid : Nat) (ty : String) (sid iid : Option Nat)
    (n : Notification) : Bool :=
  n.user == uid && n.notification_type == ty
    && n.related_status == sid && n.related_import == iid

/-- Number of notification rows for one (user, type, related-object) key. -/
def keyCount (db : DB) (uid : Nat) (ty : String) (sid iid : Option Nat) : Nat :=
  (db.notifications.filter (keyPred uid ty sid iid)).length

/-- The rows a given user has of a given type about a given status. -/
def nfPred (uid : Nat) (ty : String) (sid : Nat) (n : Notification) : Bool :=
  n.user == uid && n.notification_type == ty && n.related_status == some sid

/-- The user `uid` owns a REPORT notification linking report `rid`. -/
def hasReportNotif (db : DB) (uid rid : Nat) : Prop :=
  ∃ n, n ∈ db.notifications ∧ n.user = uid
    ∧ n.notification_type = "REPORT" ∧ rid ∈ n.related_reports

/-! ### Basic lemmas about the ORM primitives -/

theorem m2mAdd_mem (l : List Nat) (x : Nat) : x ∈ m2mAdd l x := by
  unfold m2mAdd
  split
  · assumption
  · simp

theorem m2mAdd_mem_of_mem {l : List Nat} {x : Nat} (y : Nat) (h : x ∈ l) :
    x ∈ m2mAdd l y := by
  unfold m2mAdd
  split
  · exact h
  · simp [h]

theorem m2mAdd_idem (l : List Nat) (x : Nat) :
    m2mAdd (m2mAdd l x) x = m2mAdd l x := by
  show (if x ∈ m2mAdd l x then m2mAdd l x else m2mAdd l x ++ [x]) = m2mAdd l x
  rw [if_pos (m2mAdd_mem l x)]

theorem m2mRemove_not_mem (l : List Nat) (x : Nat) : x ∉ m2mRemove l x := by
  intro h
  have := (List.mem_filter.mp h).2
  simp at this

theorem addRelatedUser_idem (rid : Nat) (n : Notification) :
    addRelatedUser rid (addRelatedUser rid n) = addRelatedUser rid n := by
  unfold addRelatedUser
  simp [m2mAdd_idem]

theorem matchesFilter_addRelatedUser (rid : Nat) (n : Notification) (uid : Nat)
    (f : Filters) : matchesFilter (addRelatedUser rid n) uid f = matchesFilter n uid f := rfl

theorem matchesFilter_addRelatedReport (rid : Nat) (n : Notification) (uid : Nat)
    (f : Filters) : matchesFilter (addRelatedReport rid n) uid f = matchesFilter n uid f := rfl

theorem nodup_map_inj {α β : Type} {f : α → β} {l : List α}
    (h : (l.map f).Nodup) {a b : α} (ha : a ∈ l) (hb : b ∈ l) (hf : f a = f b) :
    a = b :=
  List.inj_on_of_nodup_map h ha hb hf

/-- Replacing the row with a given primary key is the identity when every row
carrying that key already equals the replacement. -/
theorem map_rep_id {l : List Notification} {n : Notification}
    (h : ∀ m ∈ l, m.nid = n.nid → m = n) :
    l.map (fun m => if m.nid == n.nid then n else m) = l := by
  induction l with
  | nil => rfl
  | cons x xs ih =>
    have hx : (if x.nid == n.nid then n else x) = x := by
      by_cases hxx : x.nid = n.nid
      · have : x = n := h x (List.mem_cons_self x xs) hxx
        simp [hxx, this]
      · simp [hxx]
    rw [List.map_cons, hx, ih (fun m hm hmn => h m (List.mem_cons_of_mem x hm) hmn)]

theorem map_rep_no_match {l : List Notification} {n : Notification}
    (h : ∀ m ∈ l, ¬ m.nid = n.nid) :
    l.map (fun m => if m.nid == n.nid then n else m) = l :=
  map_rep_id (fun m hm hmn => absurd hmn (h m hm))

/-- Replacing a row invisible to a filter leaves the filter result unchanged. -/
theorem filter_map_rep_of_not {l : List Notification} {n n1 : Notification}
    {q : Notification → Bool}
    (hn : n1.nid = n.nid)
    (h : ∀ m ∈ l, m.nid = n.nid → q m = false)
    (h1 : q n1 = false) :
    (l.map (fun m => if m.nid == n1.nid then n1 else m)).filter q = l.filter q := by
  induction l with
  | nil => rfl
  | cons x xs ih =>
    rw [List.map_cons]
    by_cases hx : x.nid = n1.nid
    · have hgx : (if x.nid == n1.nid then n1 else x) = n1 := by simp [hx]
      have hqx : q x = false := h x (List.mem_cons_self x xs) (hx.trans hn)
      rw [hgx, List.filter_cons, List.filter_cons, h1, hqx]
      simp only [if_false, Bool.false_eq_true]
      exact ih (fun m hm hmn => h m (List.mem_cons_of_mem x hm) hmn)
    · have hgx : (if x.nid == n1.nid then n1 else x) = x := by simp [hx]
      rw [hgx, List.filter_cons, List.filter_cons]
      have := ih (fun m hm hmn => h m (List.mem_cons_of_mem x hm) hmn)
      by_cases hqx : q x = true
      · simp only [hqx, if_true, this]
      · simp only [Bool.not_eq_true] at hqx
        simp only [hqx, Bool.false_eq_true, if_false, this]

/-- Replacing a row by one the filter treats the same preserves the number of
filtered rows. -/
theorem filter_map_rep_congr {l : List Notification} {n n1 : Notification}
    {q : Notification → Bool}
    (hn : n1.nid = n.nid)
    (h : ∀ m ∈ l, m.nid = n.nid → m = n)
    (hq : q n1 = q n) :
    ((l.map (fun m => if m.nid == n1.nid then n1 else m)).filter q).length
      = (l.filter q).length := by
  induction l with
  | nil => rfl
  | cons x xs ih =>
    rw [List.map_cons]
    have ihx := ih (fun m hm hmn => h m (List.mem_cons_of_mem x hm) hmn)
    by_cases hx : x.nid = n1.nid
    · have hgx : (if x.nid == n1.nid then n1 else x) = n1 := by simp [hx]
      have hxn : x = n := h x (List.mem_cons_self x xs) (hx.trans hn)
      rw [hgx, List.filter_cons, List.filter_cons, hq, hxn]
      by_cases hqn : q n = true
      · simp only [hqn, if_true, List.length_cons, ihx]
      · simp only [Bool.not_eq_true] at hqn
        simp only [hqn, Bool.false_eq_true, if_false, ihx]
    · have hgx : (if x.nid == n1.nid then n1 else x) = x := by simp [hx]
      rw [hgx, List.filter_cons, List.filter_cons]
      by_cases hqx : q x = true
      · simp only [hqx, if_true, List.length_cons, ihx]
      · simp only [Bool.not_eq_true] at hqx
        simp only [hqx, Bool.false_eq_true, if_false, ihx]

/-- When the filter singles out the replaced row, the replacement is the new
unique filter result. -/
theorem filter_map_rep_singleton {l : List Notification} {n n1 : Notification}
    {q : Notification → Bool}
    (h : ∀ m ∈ l, m.nid = n.nid → m = n)
    (hf : l.filter q = [n])
    (hn : n1.nid = n.nid) (hq1 : q n1 = true) :
    (l.map (fun m => if m.nid == n1.nid then n1 else m)).filter q = [n1] := by
  induction l with
  | nil => simp at hf
  | cons x xs ih =>
    rw [List.map_cons]
    by_cases hqx : q x = true
    · rw [List.filter_cons, if_pos hqx] at hf
      have hxn : x = n := (List.cons.injEq _ _ _ _).mp hf |>.1
      have hxs : xs.filter q = [] := (List.cons.injEq _ _ _ _).mp hf |>.2
      have hgx : (if x.nid == n1.nid then n1 else x) = n1 := by
        simp [hxn, hn]
      rw [hgx, List.filter_cons, if_pos hq1]
      congr 1
      have : ∀ m' ∈ xs.map (fun m => if m.nid == n1.nid then n1 else m), q m' = false := by
        intro m' hm'
        obtain ⟨m0, hm0, rfl⟩ := List.mem_map.mp hm'
        by_cases hm0n : m0.nid = n1.nid
        · exfalso
          have hm0eq : m0 = n := h m0 (List.mem_cons_of_mem x hm0) (hm0n.trans hn)
          have : q m0 = false := by
            simpa using List.filter_eq_nil_iff.mp hxs m0 hm0
          rw [hm0eq, ← hxn] at this
          rw [hqx] at this
          exact Bool.true_eq_false.mp this
        · have hgm : (if m0.nid == n1.nid then n1 else m0) = m0 := by simp [hm0n]
          rw [hgm]
          simpa using List.filter_eq_nil_iff.mp hxs m0 hm0
      exact List.filter_eq_nil_iff.mpr (fun a ha => by
        have := this a ha
        simp [this])
    · rw [List.filter_cons] at hf
      simp only [hqx, Bool.false_eq_true, if_false] at hf
      have hgx : (if x.nid == n1.nid then n1 else x) = x := by
        by_cases hx : x.nid = n1.nid
        · exfalso
          have hxn : x = n := h x (List.mem_cons_self x xs) (hx.trans hn)
          have : n ∈ xs.filter q := hf ▸ List.mem_cons_self n []
          have hqn : q n = true := (List.mem_filter.mp this).2
          rw [hxn] at hqx
          exact hqx hqn
        · simp [hx]
      rw [hgx, List.filter_cons]
      simp only [hqx, Bool.false_eq_true, if_false]
      exact ih (fun m hm hmn => h m (List.mem_cons_of_mem x hm) hmn) hf

/-! ### The get-or-create / update composite -/

theorem mk_matches (i uid : Nat) (f : Filters) :
    matchesFilter (mkNotification i uid f) uid f = true := by
  obtain ⟨nt, rs, ri⟩ := f
  unfold matchesFilter mkNotification
  cases nt <;> cases rs <;> cases ri <;> simp

theorem matchesFilter_user {n : Notification} {uid : Nat} {f : Filters}
    (h : matchesFilter n uid f = true) : n.user = uid := by
  unfold matchesFilter at h
  simp only [Bool.and_eq_true, beq_iff_eq] at h
  exact h.1.1.1

theorem matchesFilter_type {n : Notification} {uid : Nat} {f : Filters} {t : String}
    (hf : f.notification_type = some t)
    (h : matchesFilter n uid f = true) : n.notification_type = t := by
  unfold matchesFilter at h
  rw [hf] at h
  simp only [Bool.and_eq_true, beq_iff_eq] at h
  exact h.1.1.2

/-- Behaviour of `get_or_create` in its two non-raising cases. -/
theorem get_or_create_cases {db : DB} {uid : Nat} {f : Filters}
    {n : Notification} {db1 : DB}
    (h : get_or_create db uid f = .ok (n, db1)) :
    (db.notifications.filter (fun m => matchesFilter m uid f) = []
      ∧ n = mkNotification db.next_id uid f
      ∧ db1 = { notifications := db.notifications ++ [n], next_id := db.next_id + 1 })
    ∨ (db.notifications.filter (fun m => matchesFilter m uid f) = [n] ∧ db1 = db) := by
  unfold get_or_create at h
  cases hf : db.notifications.filter (fun m => matchesFilter m uid f) with
  | nil =>
    rw [hf] at h
    simp only [Except.ok.injEq, Prod.mk.injEq] at h
    exact Or.inl ⟨rfl, h.1.symm, by rw [← h.2, ← h.1]⟩
  | cons a tl =>
    cases tl with
    | nil =>
      rw [hf] at h
      simp only [Except.ok.injEq, Prod.mk.injEq] at h
      exact Or.inr ⟨by rw [h.1], h.2.symm⟩
    | cons b tl2 =>
      rw [hf] at h
      cases h

/-- The update functions used by the module preserve every field that queries
and keys read. -/
def updFields (upd : Notification → Notification) : Prop :=
  ∀ n, (upd n).nid = n.nid ∧ (upd n).user = n.user
    ∧ (upd n).notification_type = n.notification_type
    ∧ (upd n).related_status = n.related_status
    ∧ (upd n).related_import = n.related_import
    ∧ (upd n).read = n.read

theorem updFields_addRelatedUser (rid : Nat) : updFields (addRelatedUser rid) :=
  fun _ => ⟨rfl, rfl, rfl, rfl, rfl, rfl⟩

theorem updFields_addRelatedReport (rid : Nat) : updFields (addRelatedReport rid) :=
  fun _ => ⟨rfl, rfl, rfl, rfl, rfl, rfl⟩

/-- The two non-raising outcomes of get-or-create followed by the mutation
write-back, over a well-formed table: either a fresh mutated row is appended,
or the unique matching row is rewritten in place. -/
theorem goc_shape {db db' : DB} {uid : Nat} {f : Filters}
    {upd : Notification → Notification}
    (hnid : ∀ n, (upd n).nid = n.nid)
    (hwf : WF db)
    (h : gocAndUpdate db uid f upd = .ok db') :
    (db.notifications.filter (fun m => matchesFilter m uid f) = []
      ∧ db'.notifications = db.notifications ++ [upd (mkNotification db.next_id uid f)]
      ∧ db'.next_id = db.next_id + 1)
    ∨ (∃ n, db.notifications.filter (fun m => matchesFilter m uid f) = [n]
      ∧ db'.notifications
          = db.notifications.map (fun m => if m.nid == (upd n).nid then upd n else m)
      ∧ db'.next_id = db.next_id) := by
  unfold gocAndUpdate at h
  cases hg : get_or_create db uid f with
  | error e => rw [hg] at h; cases h
  | ok p =>
    obtain ⟨n, db1⟩ := p
    rw [hg] at h
    simp only [Except.ok.injEq] at h
    rcases get_or_create_cases hg with ⟨hnil, hn, hdb1⟩ | ⟨hone, hdb1⟩
    · left
      refine ⟨hnil, ?_, ?_⟩
      · rw [← h, hdb1, hn]
        show ((db.notifications ++ [mkNotification db.next_id uid f]).map
          (fun m => if m.nid == (upd (mkNotification db.next_id uid f)).nid
            then upd (mkNotification db.next_id uid f) else m)) = _
        rw [List.map_append]
        have hg1 : (db.notifications.map
            (fun m => if m.nid == (upd (mkNotification db.next_id uid f)).nid
              then upd (mkNotification db.next_id uid f) else m)) = db.notifications := by
          apply map_rep_no_match
          intro m hm hcontra
          rw [hnid] at hcontra
          have : m.nid < db.next_id := hwf.2 m hm
          rw [hcontra] at this
          exact absurd this (by simp [mkNotification])
        rw [hg1]
        have hg2 : (if (mkNotification db.next_id uid f).nid
            == (upd (mkNotification db.next_id uid f)).nid
            then upd (mkNotification db.next_id uid f)
            else mkNotification db.next_id uid f) = upd (mkNotification db.next_id uid f) := by
          rw [hnid]
          simp
        simp only [List.map_cons, List.map_nil, hg2]
      · rw [← h, hdb1]
        rfl
    · right
      refine ⟨n, hone, ?_, ?_⟩
      · rw [← h, hdb1]
        rfl
      · rw [← h, hdb1]
        rfl

theorem keyPred_updFields {upd : Notification → Notification} (hu : updFields upd)
    (uid0 : Nat) (ty : String) (sid iid : Option Nat) (n : Notification) :
    keyPred uid0 ty sid iid (upd n) = keyPred uid0 ty sid iid n := by
  obtain ⟨_, h2, h3, h4, h5, _⟩ := hu n
  unfold keyPred
  rw [h2, h3, h4, h5]

/-- When the created row hits a key whose related-import slot is not
constrained by the call, any pre-existing row with that key would have matched
the get-or-create lookup. -/
theorem keyPred_to_matches {f : Filters} (hri : f.related_import = none)
    {uid0 : Nat} {ty : String} {sid iid : Option Nat} {i uid : Nat}
    (hc : keyPred uid0 ty sid iid (mkNotification i uid f) = true)
    {m : Notification} (hm : keyPred uid0 ty sid iid m = true) :
    matchesFilter m uid f = true := by
  obtain ⟨nt, rs, ri⟩ := f
  simp only at hri
  subst hri
  unfold keyPred at hc hm
  unfold mkNotification at hc
  simp only [Bool.and_eq_true, beq_iff_eq] at hc hm
  obtain ⟨⟨⟨hc1, hc2⟩, hc3⟩, hc4⟩ := hc
  obtain ⟨⟨⟨hm1, hm2⟩, hm3⟩, hm4⟩ := hm
  unfold matchesFilter
  cases nt <;> cases rs <;> simp_all

theorem goc_WF {db db' : DB} {uid : Nat} {f : Filters}
    {upd : Notification → Notification}
    (hu : updFields upd) (hwf : WF db)
    (h : gocAndUpdate db uid f upd = .ok db') : WF db' := by
  rcases goc_shape (fun n => (hu n).1) hwf h with ⟨_, hns, hni⟩ | ⟨n, hone, hns, hni⟩
  · constructor
    · rw [hns, List.map_append, List.nodup_append]
      refine ⟨hwf.1, by simp, ?_⟩
      intro a ha hb
      obtain ⟨m, hm, rfl⟩ := List.mem_map.mp ha
      simp only [List.map_cons, List.map_nil, List.mem_singleton] at hb
      rw [(hu _).1] at hb
      have hlt : m.nid < db.next_id := hwf.2 m hm
      rw [hb] at hlt
      exact absurd hlt (by simp [mkNotification])
    · intro m hm
      rw [hns] at hm
      rw [hni]
      rcases List.mem_append.mp hm with hL | hR
      · exact Nat.lt_succ_of_lt (hwf.2 m hL)
      · simp only [List.mem_singleton] at hR
        rw [hR, (hu _).1]
        simp [mkNotification]
  · have hn_mem : n ∈ db.notifications := by
      apply List.mem_of_mem_filter (p := fun m => matchesFilter m uid f)
      rw [hone]
      exact List.mem_singleton.mpr rfl
    constructor
    · have hmap : db'.notifications.map (fun m => m.nid)
          = db.notifications.map (fun m => m.nid) := by
        rw [hns, List.map_map]
        apply List.map_congr_left
        intro m _
        simp only [Function.comp_apply]
        by_cases hm : m.nid = (upd n).nid
        · simp only [hm, beq_self_eq_true, if_true]
        · simp [hm]
      rw [hmap]
      exact hwf.1
    · intro m hm
      rw [hns] at hm
      obtain ⟨m0, hm0, rfl⟩ := List.mem_map.mp hm
      rw [hni]
      by_cases hc : m0.nid = (upd n).nid
      · simp only [hc, beq_self_eq_true, if_true]
        rw [(hu n).1]
        exact hwf.2 n hn_mem
      · have hid : (if m0.nid == (upd n).nid then upd n else m0) = m0 := by simp [hc]
        rw [hid]
        exact hwf.2 m0 hm0

/-- A filter that ignores the mutated row (before and after the mutation) is
untouched by get-or-create plus write-back. -/
theorem goc_filter_eq {db db' : DB} {uid : Nat} {f : Filters}
    {upd : Notification → Notification} {q : Notification → Bool}
    (hu : updFields upd) (hwf : WF db)
    (h : gocAndUpdate db uid f upd = .ok db')
    (hq : ∀ n, q (upd n) = q n)
    (hmq : ∀ n, matchesFilter n uid f = true → q n = false) :
    db'.notifications.filter q = db.notifications.filter q := by
  rcases goc_shape (fun n => (hu n).1) hwf h with ⟨_, hns, _⟩ | ⟨n, hone, hns, _⟩
  · rw [hns, List.filter_append]
    have hqc : q (upd (mkNotification db.next_id uid f)) = false := by
      rw [hq]
      exact hmq _ (mk_matches db.next_id uid f)
    simp [hqc]
  · have hn_mem : n ∈ db.notifications := by
      apply List.mem_of_mem_filter (p := fun m => matchesFilter m uid f)
      rw [hone]
      exact List.mem_singleton.mpr rfl
    have hn_match : matchesFilter n uid f = true := by
      have : n ∈ db.notifications.filter (fun m => matchesFilter m uid f) := by
        rw [hone]
        exact List.mem_singleton.mpr rfl
      exact (List.mem_filter.mp this).2
    rw [hns]
    apply filter_map_rep_of_not (hu n).1
    · intro m hm hmn
      have : m = n := nodup_map_inj hwf.1 hm hn_mem hmn
      rw [this]
      exact hmq n hn_match
    · rw [hq]
      exact hmq n hn_match

/-- Get-or-create plus write-back keeps every (user, type, related-status,
related-import) key at no more rows than one or its previous count. -/
theorem goc_keyCount {db db' : DB} {uid : Nat} {f : Filters}
    {upd : Notification → Notification}
    (hu : updFields upd) (hwf : WF db)
    (hri : f.related_import = none)
    (h : gocAndUpdate db uid f upd = .ok db')
    (uid0 : Nat) (ty : String) (sid iid : Option Nat) :
    keyCount db' uid0 ty sid iid ≤ max 1 (keyCount db uid0 ty sid iid) := by
  rcases goc_shape (fun n => (hu n).1) hwf h with ⟨hnil, hns, _⟩ | ⟨n, hone, hns, _⟩
  · unfold keyCount
    rw [hns, List.filter_append]
    by_cases hqc : keyPred uid0 ty sid iid (mkNotification db.next_id uid f) = true
    · have hzero : db.notifications.filter (keyPred uid0 ty sid iid) = [] := by
        apply List.filter_eq_nil_iff.mpr
        intro m hm hqm
        have hmatch : matchesFilter m uid f = true :=
          keyPred_to_matches hri hqc (by simpa using hqm)
        have := List.filter_eq_nil_iff.mp hnil m hm
        exact this (by simpa using hmatch)
      rw [hzero]
      have : keyPred uid0 ty sid iid (upd (mkNotification db.next_id uid f)) = true := by
        rw [keyPred_updFields hu]
        exact hqc
      simp [this]
    · have hfalse : keyPred uid0 ty sid iid (upd (mkNotification db.next_id uid f)) = false := by
        rw [keyPred_updFields hu]
        simpa using hqc
      rw [List.filter_cons]
      simp only [hfalse, Bool.false_eq_true, if_false, List.filter_nil, List.append_nil]
      exact Nat.le_max_right 1 _
  · have hn_mem : n ∈ db.notifications := by
      apply List.mem_of_mem_filter (p := fun m => matchesFilter m uid f)
      rw [hone]
      exact List.mem_singleton.mpr rfl
    unfold keyCount
    rw [hns]
    have hlen := filter_map_rep_congr (q := keyPred uid0 ty sid iid) (hu n).1
      (fun m hm hmn => nodup_map_inj hwf.1 hm hn_mem hmn)
      (keyPred_updFields hu uid0 ty sid iid n)
    rw [hlen]
    exact Nat.le_max_right 1 _

/-- Get-or-create plus a read-preserving mutation never changes the `read`
flag of a row that already existed. -/
theorem goc_read {db db' : DB} {uid : Nat} {f : Filters}
    {upd : Notification → Notification}
    (hu : updFields upd) (hwf : WF db)
    (h : gocAndUpdate db uid f upd = .ok db')
    {n' n : Notification} (h1 : n' ∈ db'.notifications) (h2 : n ∈ db.notifications)
    (heq : n'.nid = n.nid) : n'.read = n.read := by
  rcases goc_shape (fun m => (hu m).1) hwf h with ⟨_, hns, _⟩ | ⟨n0, hone, hns, _⟩
  · rw [hns] at h1
    rcases List.mem_append.mp h1 with hL | hR
    · rw [nodup_map_inj hwf.1 hL h2 heq]
    · simp only [List.mem_singleton] at hR
      exfalso
      have hlt : n.nid < db.next_id := hwf.2 n h2
      rw [← heq, hR, (hu _).1] at hlt
      exact absurd hlt (by simp [mkNotification])
  · have hn0_mem : n0 ∈ db.notifications := by
      apply List.mem_of_mem_filter (p := fun m => matchesFilter m uid f)
      rw [hone]
      exact List.mem_singleton.mpr rfl
    rw [hns] at h1
    obtain ⟨m, hm, rfl⟩ := List.mem_map.mp h1
    by_cases hc : m.nid = (upd n0).nid
    · simp only [hc, beq_self_eq_true, if_true] at heq ⊢
      have hn0n : n0 = n := by
        apply nodup_map_inj hwf.1 hn0_mem h2
        rw [← (hu n0).1]
        exact heq
      rw [(hu n0).2.2.2.2.2, hn0n]
    · have hid : (if m.nid == (upd n0).nid then upd n0 else m) = m := by simp [hc]
      rw [hid] at heq ⊢
      rw [nodup_map_inj hwf.1 hm h2 heq]

/-- After a successful get-or-create plus write-back, the mutated image of a
row matching the lookup is in the table.  (No well-formedness needed.) -/
theorem goc_mem {db db' : DB} {uid : Nat} {f : Filters}
    {upd : Notification → Notification}
    (hnid : ∀ n, (upd n).nid = n.nid)
    (h : gocAndUpdate db uid f upd = .ok db') :
    ∃ n0, matchesFilter n0 uid f = true ∧ upd n0 ∈ db'.notifications := by
  unfold gocAndUpdate at h
  cases hg : get_or_create db uid f with
  | error e => rw [hg] at h; cases h
  | ok p =>
    obtain ⟨n, db1⟩ := p
    rw [hg] at h
    simp only [Except.ok.injEq] at h
    have hmem_n : n ∈ db1.notifications := by
      rcases get_or_create_cases hg with ⟨_, hn, hdb1⟩ | ⟨hone, hdb1⟩
      · rw [hdb1]
        simp
      · rw [hdb1]
        apply List.mem_of_mem_filter (p := fun m => matchesFilter m uid f)
        rw [hone]
        exact List.mem_singleton.mpr rfl
    have hmatch : matchesFilter n uid f = true := by
      rcases get_or_create_cases hg with ⟨_, hn, _⟩ | ⟨hone, _⟩
      · rw [hn]
        exact mk_matches db.next_id uid f
      · have : n ∈ db.notifications.filter (fun m => matchesFilter m uid f) := by
          rw [hone]
          exact List.mem_singleton.mpr rfl
        exact (List.mem_filter.mp this).2
    refine ⟨n, hmatch, ?_⟩
    rw [← h]
    show upd n ∈ (saveNotif db1 (upd n)).notifications
    unfold saveNotif
    simp only
    apply List.mem_map.mpr
    refine ⟨n, hmem_n, ?_⟩
    rw [hnid]
    simp

/-- Writing back an already-present row is the identity. -/
theorem saveNotif_id {db : DB} {n : Notification}
    (h : ∀ m ∈ db.notifications, m.nid = n.nid → m = n) :
    saveNotif db n = db := by
  unfold saveNotif
  rw [map_rep_id h]

/-! ### Lemmas about `Notification.notify` and the mention handler -/

theorem max1_chain {a b c : Nat} (h1 : b ≤ max 1 a) (h2 : c ≤ max 1 b) :
    c ≤ max 1 a :=
  h2.trans (max_le (le_max_left 1 a) h1)

theorem notifyTr_wf {db db' : DB} {u r : User} {f : Filters} (hwf : WF db)
    (h : Notification.notifyTr db u r f = .ok db') : WF db' := by
  unfold Notification.notifyTr at h
  split at h
  · injection h with h
    rw [← h]
    exact hwf
  · exact goc_WF (updFields_addRelatedUser r.id) hwf h

theorem notifyTr_filter_eq {db db' : DB} {u r : User} {f : Filters}
    {q : Notification → Bool}
    (hwf : WF db) (h : Notification.notifyTr db u r f = .ok db')
    (hq : ∀ rid n, q (addRelatedUser rid n) = q n)
    (hmq : ∀ n, matchesFilter n u.id f = true → q n = false) :
    db'.notifications.filter q = db.notifications.filter q := by
  unfold Notification.notifyTr at h
  split at h
  · injection h with h
    rw [← h]
  · exact goc_filter_eq (updFields_addRelatedUser r.id) hwf h (hq r.id) hmq

theorem notifyTr_keyCount {db db' : DB} {u r : User} {f : Filters}
    (hwf : WF db) (hri : f.related_import = none)
    (h : Notification.notifyTr db u r f = .ok db')
    (uid0 : Nat) (ty : String) (sid iid : Option Nat) :
    keyCount db' uid0 ty sid iid ≤ max 1 (keyCount db uid0 ty sid iid) := by
  unfold Notification.notifyTr at h
  split at h
  · injection h with h
    rw [← h]
    exact Nat.le_max_right 1 _
  · exact goc_keyCount (updFields_addRelatedUser r.id) hwf hri h uid0 ty sid iid

theorem mentionLoop_wf_keyCount (st : Status) (uid0 : Nat) (ty : String)
    (sid iid : Option Nat) :
    ∀ (ms : List User) (db db' : DB), WF db → mentionLoop st ms db = .ok db' →
      WF db' ∧ keyCount db' uid0 ty sid iid ≤ max 1 (keyCount db uid0 ty sid iid) := by
  intro ms
  induction ms with
  | nil =>
    intro db db' hwf h
    injection h with h
    rw [← h]
    exact ⟨hwf, Nat.le_max_right 1 _⟩
  | cons m rest ih =>
    intro db db' hwf h
    unfold mentionLoop at h
    by_cases hskip : skipMention st m = true
    · rw [if_pos hskip] at h
      exact ih db db' hwf h
    · rw [if_neg hskip] at h
      cases hstep : Notification.notifyTr db m st.user
          { notification_type := some "MENTION", related_status := some st.id } with
      | error e => rw [hstep] at h; cases h
      | ok db1 =>
        rw [hstep] at h
        have hwf1 := notifyTr_wf hwf hstep
        have hkey1 := notifyTr_keyCount hwf rfl hstep uid0 ty sid iid
        obtain ⟨hwf', hkey2⟩ := ih db1 db' hwf1 h
        exact ⟨hwf', max1_chain hkey1 hkey2⟩

theorem mentionLoop_filter_eq (st : Status) {q : Notification → Bool}
    (hq : ∀ rid n, q (addRelatedUser rid n) = q n) :
    ∀ (ms : List User) (db db' : DB), WF db → mentionLoop st ms db = .ok db' →
    (∀ m ∈ ms, skipMention st m = false →
      ∀ n, matchesFilter n m.id
        { notification_type := some "MENTION", related_status := some st.id } = true →
        q n = false) →
    db'.notifications.filter q = db.notifications.filter q := by
  intro ms
  induction ms with
  | nil =>
    intro db db' hwf h _
    injection h with h
    rw [← h]
  | cons m rest ih =>
    intro db db' hwf h hmq
    unfold mentionLoop at h
    by_cases hskip : skipMention st m = true
    · rw [if_pos hskip] at h
      exact ih db db' hwf h (fun m' hm' => hmq m' (List.mem_cons_of_mem m hm'))
    · rw [if_neg hskip] at h
      cases hstep : Notification.notifyTr db m st.user
          { notification_type := some "MENTION", related_status := some st.id } with
      | error e => rw [hstep] at h; cases h
      | ok db1 =>
        rw [hstep] at h
        have hwf1 := notifyTr_wf hwf hstep
        have heq1 := notifyTr_filter_eq hwf hstep hq
          (hmq m (List.mem_cons_self m rest) (Bool.not_eq_true _ |>.mp hskip))
        have heq2 := ih db1 db' hwf1 h (fun m' hm' => hmq m' (List.mem_cons_of_mem m hm'))
        rw [heq2, heq1]

theorem replyStep_none {db : DB} {st : Status} (hrp : st.reply_parent = none) :
    replyStep db st = .ok db := by
  unfold replyStep
  rw [hrp]

theorem replyStep_some {db : DB} {st : Status} {p : StatusRef}
    (hrp : st.reply_parent = some p) :
    replyStep db st
      = (if !(p.user.id == st.user.id) && p.user.is_local then
          Notification.notifyTr db p.user st.user
            { related_status := some st.id, notification_type := some "REPLY" }
        else .ok db) := by
  unfold replyStep
  rw [hrp]

theorem replyStep_wf {db db' : DB} {st : Status} (hwf : WF db)
    (h : replyStep db st = .ok db') : WF db' := by
  cases hrp : st.reply_parent with
  | none =>
    rw [replyStep_none hrp] at h
    injection h with h
    rw [← h]
    exact hwf
  | some p =>
    rw [replyStep_some hrp] at h
    split at h
    · exact notifyTr_wf hwf h
    · injection h with h
      rw [← h]
      exact hwf

theorem replyStep_filter_eq {db db' : DB} {st : Status} {q : Notification → Bool}
    (hwf : WF db) (h : replyStep db st = .ok db')
    (hq : ∀ rid n, q (addRelatedUser rid n) = q n)
    (hmq : ∀ p, st.reply_parent = some p →
      ∀ n, matchesFilter n p.user.id
        { related_status := some st.id, notification_type := some "REPLY" } = true →
        q n = false) :
    db'.notifications.filter q = db.notifications.filter q := by
  cases hrp : st.reply_parent with
  | none =>
    rw [replyStep_none hrp] at h
    injection h with h
    rw [← h]
  | some p =>
    rw [replyStep_some hrp] at h
    split at h
    · exact notifyTr_filter_eq hwf h hq (hmq p hrp)
    · injection h with h
      rw [← h]

theorem replyStep_keyCount {db db' : DB} {st : Status} (hwf : WF db)
    (h : replyStep db st = .ok db')
    (uid0 : Nat) (ty : String) (sid iid : Option Nat) :
    keyCount db' uid0 ty sid iid ≤ max 1 (keyCount db uid0 ty sid iid) := by
  cases hrp : st.reply_parent with
  | none =>
    rw [replyStep_none hrp] at h
    injection h with h
    rw [← h]
    exact Nat.le_max_right 1 _
  | some p =>
    rw [replyStep_some hrp] at h
    split at h
    · exact notifyTr_keyCount hwf rfl h uid0 ty sid iid
    · injection h with h
      rw [← h]
      exact Nat.le_max_right 1 _

/-! ### Lemmas about the report fan-out -/

theorem reportStep_wf {db db' : DB} {a : User} {rid : Nat} (hwf : WF db)
    (h : reportStep db a rid = .ok db') : WF db' := by
  unfold reportStep at h
  exact goc_WF (updFields_addRelatedReport rid) hwf h

theorem reportStep_keyCount {db db' : DB} {a : User} {rid : Nat} (hwf : WF db)
    (h : reportStep db a rid = .ok db')
    (uid0 : Nat) (ty : String) (sid iid : Option Nat) :
    keyCount db' uid0 ty sid iid ≤ max 1 (keyCount db uid0 ty sid iid) := by
  unfold reportStep at h
  exact goc_keyCount (updFields_addRelatedReport rid) hwf rfl h uid0 ty sid iid

theorem reportStep_establishes {db db' : DB} {a : User} {rid : Nat}
    (h : reportStep db a rid = .ok db') : hasReportNotif db' a.id rid := by
  unfold reportStep at h
  obtain ⟨n0, hmatch, hmem⟩ :=
    goc_mem (fun n => (rfl : (addRelatedReport rid n).nid = n.nid)) h
  refine ⟨addRelatedReport rid n0, hmem, ?_, ?_, ?_⟩
  · show n0.user = a.id
    exact matchesFilter_user hmatch
  · show n0.notification_type = "REPORT"
    exact matchesFilter_type (f := { notification_type := some "REPORT" }) rfl hmatch
  · show rid ∈ m2mAdd n0.related_reports rid
    exact m2mAdd_mem _ _

theorem reportStep_preserves {db db' : DB} {b : User} {rid rid0 uid : Nat}
    (hwf : WF db) (h : reportStep db b rid = .ok db')
    (hp : hasReportNotif db uid rid0) : hasReportNotif db' uid rid0 := by
  obtain ⟨n, hn, hu, ht, hr⟩ := hp
  unfold reportStep at h
  rcases goc_shape (fun n => (rfl : (addRelatedReport rid n).nid = n.nid)) hwf h
    with ⟨_, hns, _⟩ | ⟨n0, hone, hns, _⟩
  · exact ⟨n, by rw [hns]; exact List.mem_append_left _ hn, hu, ht, hr⟩
  · have hn0_mem : n0 ∈ db.notifications := by
      apply List.mem_of_mem_filter
        (p := fun m => matchesFilter m b.id { notification_type := some "REPORT" })
      rw [hone]
      exact List.mem_singleton.mpr rfl
    by_cases hc : n.nid = (addRelatedReport rid n0).nid
    · have hnn0 : n = n0 := nodup_map_inj hwf.1 hn hn0_mem hc
      refine ⟨addRelatedReport rid n0, ?_, ?_, ?_, ?_⟩
      · rw [hns]
        exact List.mem_map.mpr ⟨n0, hn0_mem, by simp [addRelatedReport]⟩
      · show n0.user = uid
        rw [← hnn0]
        exact hu
      · show n0.notification_type = "REPORT"
        rw [← hnn0]
        exact ht
      · show rid0 ∈ m2mAdd n0.related_reports rid
        apply m2mAdd_mem_of_mem
        rw [← hnn0]
        exact hr
    · refine ⟨n, ?_, hu, ht, hr⟩
      rw [hns]
      exact List.mem_map.mpr ⟨n, hn, by simp [hc]⟩

theorem reportLoop_wf_preserves (rid : Nat) :
    ∀ (admins : List User) (db db' : DB), WF db → reportLoop rid admins db = .ok db' →
      WF db' ∧ (∀ uid rid0, hasReportNotif db uid rid0 → hasReportNotif db' uid rid0) := by
  intro admins
  induction admins with
  | nil =>
    intro db db' hwf h
    injection h with h
    rw [← h]
    exact ⟨hwf, fun _ _ hp => hp⟩
  | cons a rest ih =>
    intro db db' hwf h
    unfold reportLoop at h
    cases hstep : reportStep db a rid with
    | error e => rw [hstep] at h; cases h
    | ok db1 =>
      rw [hstep] at h
      have hwf1 := reportStep_wf hwf hstep
      obtain ⟨hwf', hpres⟩ := ih db1 db' hwf1 h
      exact ⟨hwf', fun uid rid0 hp =>
        hpres uid rid0 (reportStep_preserves hwf hstep hp)⟩

theorem reportLoop_establishes (rid : Nat) :
    ∀ (admins : List User) (db db' : DB), WF db → reportLoop rid admins db = .ok db' →
      ∀ a ∈ admins, hasReportNotif db' a.id rid := by
  intro admins
  induction admins with
  | nil =>
    intro db db' _ _ a ha
    cases ha
  | cons a0 rest ih =>
    intro db db' hwf h a ha
    unfold reportLoop at h
    cases hstep : reportStep db a0 rid with
    | error e => rw [hstep] at h; cases h
    | ok db1 =>
      rw [hstep] at h
      have hwf1 := reportStep_wf hwf hstep
      rcases List.mem_cons.mp ha with rfl | ha'
      · exact (reportLoop_wf_preserves rid rest db1 db' hwf1 h).2 a.id rid
          (reportStep_establishes hstep)
      · exact ih db1 db' hwf1 h a ha'

theorem reportLoop_user_filter (rid uid : Nat) :
    ∀ (admins : List User) (db db' : DB), WF db → reportLoop rid admins db = .ok db' →
      (∀ a ∈ admins, ¬ a.id = uid) →
      db'.notifications.filter (fun n => n.user == uid)
        = db.notifications.filter (fun n => n.user == uid) := by
  intro admins
  induction admins with
  | nil =>
    intro db db' _ h _
    injection h with h
    rw [← h]
  | cons a rest ih =>
    intro db db' hwf h hne
    unfold reportLoop at h
    cases hstep : reportStep db a rid with
    | error e => rw [hstep] at h; cases h
    | ok db1 =>
      rw [hstep] at h
      have hwf1 := reportStep_wf hwf hstep
      have heq1 : db1.notifications.filter (fun n => n.user == uid)
          = db.notifications.filter (fun n => n.user == uid) := by
        unfold reportStep at hstep
        apply goc_filter_eq (q := fun n => n.user == uid)
          (updFields_addRelatedReport rid) hwf hstep (fun _ => rfl)
        intro n hmatch
        have : n.user = a.id := matchesFilter_user hmatch
        simp [this, hne a (List.mem_cons_self a rest)]
      have heq2 := ih db1 db' hwf1 h (fun a' ha' => hne a' (List.mem_cons_of_mem a ha'))
      rw [heq2, heq1]

theorem reportLoop_keyCount (rid : Nat) (uid0 : Nat) (ty : String)
    (sid iid : Option Nat) :
    ∀ (admins : List User) (db db' : DB), WF db → reportLoop rid admins db = .ok db' →
      keyCount db' uid0 ty sid iid ≤ max 1 (keyCount db uid0 ty sid iid) := by
  intro admins
  induction admins with
  | nil =>
    intro db db' _ h
    injection h with h
    rw [← h]
    exact Nat.le_max_right 1 _
  | cons a rest ih =>
    intro db db' hwf h
    unfold reportLoop at h
    cases hstep : reportStep db a rid with
    | error e => rw [hstep] at h; cases h
    | ok db1 =>
      rw [hstep] at h
      have hwf1 := reportStep_wf hwf hstep
      exact max1_chain (reportStep_keyCount hwf hstep uid0 ty sid iid)
        (ih db1 db' hwf1 h)

/-! ### Reduction lemmas for the top-level operations -/

theorem notify_ok {db db' : DB} {u r : User} {f : Filters}
    (h : Notification.notifyTr db u r f = .ok db') :
    Notification.notify db u r f = (db', none) := by
  unfold Notification.notify
  rw [h]

theorem notify_error {db : DB} {u r : User} {f : Filters} {e : DBError}
    (h : Notification.notifyTr db u r f = .error e) :
    Notification.notify db u r f = (db, some e) := by
  unfold Notification.notify
  rw [h]

theorem unnotify_single {db : DB} {u r : User} {f : Filters} {n : Notification}
    (h : db.notifications.filter (fun m => matchesFilter m u.id f) = [n]) :
    Notification.unnotify db u r f
      = (if (m2mRemove n.related_users r.id).isEmpty
          then (deleteNotif
            (saveNotif db { n with related_users := m2mRemove n.related_users r.id })
            n.nid, none)
          else (saveNotif db { n with related_users := m2mRemove n.related_users r.id },
            none)) := by
  unfold Notification.unnotify
  rw [h]

/-! ### Concrete fixtures used by witnesses and counterexamples -/

def exU1 : User := { id := 1, is_local := true, user_permissions := [], is_superuser := false }

def exU2 : User := { id := 2, is_local := true, user_permissions := [], is_superuser := false }

def exU3 : User := { id := 3, is_local := false, user_permissions := [], is_superuser := true }

def exU4 : User := { id := 4, is_local := false, user_permissions := [], is_superuser := false }

def exF : Filters := { notification_type := some "FAVORITE", related_status := some 5 }

def exDB0 : DB := { notifications := [], next_id := 0 }

def exN1 : Notification :=
  { nid := 0, user := 1, read := false, notification_type := "FAVORITE"
    related_users := [2], related_groups := [], related_status := some 5
    related_import := none, related_list_items := [], related_reports := [] }

def exN1Empty : Notification :=
  { nid := 0, user := 1, read := false, notification_type := "FAVORITE"
    related_users := [], related_groups := [], related_status := some 5
    related_import := none, related_list_items := [], related_reports := [] }

def exN2 : Notification :=
  { nid := 1, user := 1, read := false, notification_type := "FAVORITE"
    related_users := [3], related_groups := [], related_status := some 5
    related_import := none, related_list_items := [], related_reports := [] }

def exDB1 : DB := { notifications := [exN1], next_id := 1 }

def exDB2 : DB := { notifications := [exN1, exN2], next_id := 2 }

def exMid : DB := { notifications := [exN1Empty], next_id := 1 }

/-! ### Claim C10 -/

/-- C10: a call to unnotify for which no notification matches (user, filters)
returns normally (the framework's not-found exception is caught and
swallowed) and leaves every notification record unchanged. -/
theorem claim10_unnotify_no_match (db : DB) (u r : User) (f : Filters)
    (h : db.notifications.filter (fun m => matchesFilter m u.id f) = []) :
    Notification.unnotify db u r f = (db, none) := by
  unfold Notification.unnotify
  rw [h]

/-- Witness for C10 at a concrete empty table. -/
theorem claim10_witness :
    exDB0.notifications.filter (fun m => matchesFilter m exU1.id exF) = []
    ∧ Notification.unnotify exDB0 exU1 exU2 exF = (exDB0, none) :=
  ⟨by decide, claim10_unnotify_no_match exDB0 exU1 exU2 exF (by decide)⟩

/-! ### Claim C5 -/

/-- C5: when a unique notification matches (user, filters), unnotify removes
related_user from its related_users set, and the record is deleted if and
only if no related users remain afterwards. -/
theorem claim5_unnotify_removes (db : DB) (u r : User) (f : Filters)
    (n : Notification)
    (h : db.notifications.filter (fun m => matchesFilter m u.id f) = [n]) :
    (Notification.unnotify db u r f).2 = none
    ∧ (m2mRemove n.related_users r.id = [] →
        ∀ m ∈ (Notification.unnotify db u r f).1.notifications, ¬ m.nid = n.nid)
    ∧ (¬ m2mRemove n.related_users r.id = [] →
        ∃ m ∈ (Notification.unnotify db u r f).1.notifications,
          m.nid = n.nid ∧ m.related_users = m2mRemove n.related_users r.id
            ∧ r.id ∉ m.related_users) := by
  have hn_mem : n ∈ db.notifications := by
    apply List.mem_of_mem_filter (p := fun m => matchesFilter m u.id f)
    rw [h]
    exact List.mem_singleton.mpr rfl
  rw [unnotify_single h]
  by_cases hemp : m2mRemove n.related_users r.id = []
  · have hb : (m2mRemove n.related_users r.id).isEmpty = true := by
      rw [hemp]
      rfl
    rw [if_pos hb]
    refine ⟨rfl, fun _ => ?_, fun hne => absurd hemp hne⟩
    intro m hm
    have := (List.mem_filter.mp hm).2
    simpa using this
  · have hb : ¬ ((m2mRemove n.related_users r.id).isEmpty = true) := by
      intro hc
      exact hemp (List.isEmpty_iff.mp hc)
    rw [if_neg hb]
    refine ⟨rfl, fun he => absurd he hemp, fun _ => ?_⟩
    refine ⟨{ n with related_users := m2mRemove n.related_users r.id }, ?_, rfl, rfl, ?_⟩
    · show _ ∈ (saveNotif db _).notifications
      unfold saveNotif
      exact List.mem_map.mpr ⟨n, hn_mem, by simp⟩
    · exact m2mRemove_not_mem _ _

/-- Witness for C5 at a concrete table with one matching record whose last
related user is removed: the record is deleted. -/
theorem claim5_witness :
    (Notification.unnotify exDB1 exU1 exU2 exF).2 = none
    ∧ ∀ m ∈ (Notification.unnotify exDB1 exU1 exU2 exF).1.notifications,
      ¬ m.nid = exN1.nid :=
  ⟨(claim5_unnotify_removes exDB1 exU1 exU2 exF exN1 (by decide)).1,
    (claim5_unnotify_removes exDB1 exU1 exU2 exF exN1 (by decide)).2.1 (by decide)⟩

/-! ### Claim C6 -/

/-- C6: saving a status with its deleted flag set deletes every notification
whose related_status is that status (for all users and types), keeps every
other notification, and creates nothing: in particular no reply or mention
notification is created for the deleted status. -/
theorem claim6_deleted_status (db : DB) (st : Status) (hdel : st.deleted = true) :
    (∀ n ∈ (notify_user_on_mention db st).notifications, ¬ n.related_status = some st.id)
    ∧ (∀ n ∈ db.notifications, ¬ n.related_status = some st.id →
        n ∈ (notify_user_on_mention db st).notifications)
    ∧ (∀ n ∈ (notify_user_on_mention db st).notifications, n ∈ db.notifications) := by
  have hred : notify_user_on_mention db st
      = { db with notifications :=
          db.notifications.filter (fun n => !(n.related_status == some st.id)) } := by
    unfold notify_user_on_mention
    rw [if_pos hdel]
  rw [hred]
  refine ⟨?_, ?_, ?_⟩
  · intro n hn
    have := (List.mem_filter.mp hn).2
    simpa using this
  · intro n hn hne
    exact List.mem_filter.mpr ⟨hn, by simpa using hne⟩
  · intro n hn
    exact List.mem_of_mem_filter hn

/-- Witness for C6: a concrete deleted status wipes the one related
notification. -/
theorem claim6_witness :
    ({ id := 5, user := exU2, deleted := true, reply_parent := none,
        mention_users := [exU1] } : Status).deleted = true
    ∧ ∀ n ∈ (notify_user_on_mention exDB1
        { id := 5, user := exU2, deleted := true, reply_parent := none,
          mention_users := [exU1] }).notifications,
      ¬ n.related_status = some 5 :=
  ⟨rfl, (claim6_deleted_status exDB1
    { id := 5, user := exU2, deleted := true, reply_parent := none,
      mention_users := [exU1] } rfl).1⟩

/-! ### Claim C3 -/

/-- C3: notify is a no-op when the target user is not local or is the actor;
otherwise (when no exception escapes) a notification matching (user, filters)
is in the table afterwards with related_user in its related_users set. -/
theorem claim3_notify (db : DB) (u r : User) (f : Filters) :
    ((u.is_local = false ∨ u.id = r.id) → Notification.notify db u r f = (db, none))
    ∧ ((Notification.notify db u r f).2 = none → u.is_local = true → ¬ u.id = r.id →
      ∃ n ∈ (Notification.notify db u r f).1.notifications,
        matchesFilter n u.id f = true ∧ r.id ∈ n.related_users) := by
  constructor
  · intro hguard
    have hg : (!u.is_local || u.id == r.id) = true := by
      rcases hguard with h1 | h2
      · simp [h1]
      · simp [h2]
    apply notify_ok
    unfold Notification.notifyTr
    rw [if_pos hg]
  · intro hnone hlocal hne
    cases hstep : Notification.notifyTr db u r f with
    | error e =>
      rw [notify_error hstep] at hnone
      simp at hnone
    | ok db1 =>
      rw [notify_ok hstep]
      have hguard : (!u.is_local || u.id == r.id) = false := by
        simp [hlocal, hne]
      unfold Notification.notifyTr at hstep
      rw [hguard] at hstep
      simp only [Bool.false_eq_true, if_false] at hstep
      obtain ⟨n0, hmatch, hmem⟩ :=
        goc_mem (fun n => (rfl : (addRelatedUser r.id n).nid = n.nid)) hstep
      refine ⟨addRelatedUser r.id n0, hmem, ?_, ?_⟩
      · rw [matchesFilter_addRelatedUser]
        exact hmatch
      · show r.id ∈ m2mAdd n0.related_users r.id
        exact m2mAdd_mem _ _

/-- Witness for C3: a concrete notify on an empty table creates a matching
record holding the actor. -/
theorem claim3_witness :
    (Notification.notify exDB0 exU1 exU2 exF).2 = none
    ∧ ∃ n ∈ (Notification.notify exDB0 exU1 exU2 exF).1.notifications,
      matchesFilter n exU1.id exF = true ∧ exU2.id ∈ n.related_users :=
  ⟨by decide, (claim3_notify exDB0 exU1 exU2 exF).2 (by decide) (by decide) (by decide)⟩

/-! ### Claim C9 -/

/-- C9: notify never changes the persisted read flag of an existing
notification: the `unread` assignment in the source touches a non-model
attribute, so any row surviving the call keeps its read value. -/
theorem claim9_read_preserved (db : DB) (u r : User) (f : Filters) (hwf : WF db) :
    ∀ n' ∈ (Notification.notify db u r f).1.notifications, ∀ n ∈ db.notifications,
      n'.nid = n.nid → n'.read = n.read := by
  intro n' h1 n h2 heq
  cases hstep : Notification.notifyTr db u r f with
  | error e =>
    rw [notify_error hstep] at h1
    rw [nodup_map_inj hwf.1 h1 h2 heq]
  | ok db1 =>
    rw [notify_ok hstep] at h1
    unfold Notification.notifyTr at hstep
    split at hstep
    · injection hstep with hh
      rw [← hh] at h1
      rw [nodup_map_inj hwf.1 h1 h2 heq]
    · exact goc_read (updFields_addRelatedUser r.id) hwf hstep h1 h2 heq

/-- Witness for C9: a repeat notify on a table holding an already-read
matching notification leaves its read flag true. -/
theorem claim9_witness :
    WF { notifications := [{ exN1 with read := true }], next_id := 1 }
    ∧ ∀ n' ∈ (Notification.notify
          { notifications := [{ exN1 with read := true }], next_id := 1 }
          exU1 exU2 exF).1.notifications,
      ∀ n ∈ ({ notifications := [{ exN1 with read := true }], next_id := 1 } : DB).notifications,
        n'.nid = n.nid → n'.read = n.read :=
  ⟨by decide, claim9_read_preserved
    { notifications := [{ exN1 with read := true }], next_id := 1 } exU1 exU2 exF (by decide)⟩

/-! ### Claim C2 -/

/-- C2 counterexample: unnotify is not wrapped in a transaction, so the
committed state right after its remove write (removing the last related user)
is neither the initial database nor the final one (where the emptied record
has been deleted) — a transaction boundary around lookup and mutation would
rule such an observable intermediate state out. -/
theorem claim2_counterexample :
    Notification.unnotifyAfterRemove exDB1 exU1 exU2 exF = some exMid
    ∧ ¬ exMid = exDB1
    ∧ ¬ exMid = (Notification.unnotify exDB1 exU1 exU2 exF).1
    ∧ (Notification.unnotify exDB1 exU1 exU2 exF).2 = none := by
  refine ⟨by decide, by decide, by decide, by decide⟩

/-- C2 amended: notify executes inside a transaction boundary, so whenever an
exception escapes between the lookup and the mutation the database is left
unchanged; unnotify carries no such boundary, and its remove write commits on
its own (see the counterexample). -/
theorem claim2_amended (db : DB) (u r : User) (f : Filters) (e : DBError)
    (h : (Notification.notify db u r f).2 = some e) :
    (Notification.notify db u r f).1 = db := by
  cases hstep : Notification.notifyTr db u r f with
  | ok db1 =>
    rw [notify_ok hstep] at h
    simp at h
  | error e0 =>
    rw [notify_error hstep]

/-- Witness for C2 amended: a concrete notify that raises
MultipleObjectsReturned (two rows match the lookup) leaves the table
unchanged. -/
theorem claim2_witness :
    (Notification.notify exDB2 exU1 exU2 exF).2 = some DBError.MultipleObjectsReturned
    ∧ (Notification.notify exDB2 exU1 exU2 exF).1 = exDB2 :=
  ⟨by decide, claim2_amended exDB2 exU1 exU2 exF DBError.MultipleObjectsReturned (by decide)⟩

/-! ### Claim C4 -/

theorem gocAndUpdate_of_goc {db db1 : DB} {uid : Nat} {f : Filters}
    {upd : Notification → Notification} {n : Notification}
    (h : get_or_create db uid f = .ok (n, db1)) :
    gocAndUpdate db uid f upd = .ok (saveNotif db1 (upd n)) := by
  unfold gocAndUpdate
  rw [h]

/-- A successful notify reaches a fixpoint: running the body again from the
resulting table finds the row it just wrote and rewrites it unchanged. -/
theorem notifyTr_fix {db db' : DB} {u r : User} {f : Filters} (hwf : WF db)
    (h : Notification.notifyTr db u r f = .ok db') :
    Notification.notifyTr db' u r f = .ok db' := by
  unfold Notification.notifyTr at h ⊢
  by_cases hg : (!u.is_local || u.id == r.id) = true
  · rw [if_pos hg] at h ⊢
  · rw [if_neg hg] at h ⊢
    rcases goc_shape (fun n => (rfl : (addRelatedUser r.id n).nid = n.nid)) hwf h
      with ⟨hnil, hns, _⟩ | ⟨n, hone, hns, _⟩
    · have hmatchc : matchesFilter
          (addRelatedUser r.id (mkNotification db.next_id u.id f)) u.id f = true := by
        rw [matchesFilter_addRelatedUser]
        exact mk_matches db.next_id u.id f
      have hfilt : db'.notifications.filter (fun m => matchesFilter m u.id f)
          = [addRelatedUser r.id (mkNotification db.next_id u.id f)] := by
        rw [hns, List.filter_append, hnil]
        simp [List.filter_cons, hmatchc]
      have hgoc : get_or_create db' u.id f
          = .ok (addRelatedUser r.id (mkNotification db.next_id u.id f), db') := by
        unfold get_or_create
        rw [hfilt]
      rw [gocAndUpdate_of_goc hgoc, addRelatedUser_idem]
      have hsave : saveNotif db'
          (addRelatedUser r.id (mkNotification db.next_id u.id f)) = db' := by
        apply saveNotif_id
        intro m hm hmn
        rw [hns] at hm
        rcases List.mem_append.mp hm with hL | hR
        · exfalso
          have hlt : m.nid < db.next_id := hwf.2 m hL
          have hnid : (addRelatedUser r.id (mkNotification db.next_id u.id f)).nid
              = db.next_id := rfl
          rw [hnid] at hmn
          rw [hmn] at hlt
          exact absurd hlt (by simp)
        · simpa using hR
      rw [hsave]
    · have hn_mem : n ∈ db.notifications := by
        apply List.mem_of_mem_filter (p := fun m => matchesFilter m u.id f)
        rw [hone]
        exact List.mem_singleton.mpr rfl
      have hmatchn : matchesFilter n u.id f = true := by
        have : n ∈ db.notifications.filter (fun m => matchesFilter m u.id f) := by
          rw [hone]
          exact List.mem_singleton.mpr rfl
        exact (List.mem_filter.mp this).2
      have hfilt : db'.notifications.filter (fun m => matchesFilter m u.id f)
          = [addRelatedUser r.id n] := by
        rw [hns]
        apply filter_map_rep_singleton
          (fun m hm hmn => nodup_map_inj hwf.1 hm hn_mem hmn) hone
          (rfl : (addRelatedUser r.id n).nid = n.nid)
        rw [matchesFilter_addRelatedUser]
        exact hmatchn
      have hgoc : get_or_create db' u.id f = .ok (addRelatedUser r.id n, db') := by
        unfold get_or_create
        rw [hfilt]
      rw [gocAndUpdate_of_goc hgoc, addRelatedUser_idem]
      have hsave : saveNotif db' (addRelatedUser r.id n) = db' := by
        apply saveNotif_id
        intro m hm hmn
        rw [hns] at hm
        obtain ⟨m0, hm0, rfl⟩ := List.mem_map.mp hm
        by_cases hc0 : m0.nid = (addRelatedUser r.id n).nid
        · simp [hc0]
        · have hid : (if m0.nid == (addRelatedUser r.id n).nid
              then addRelatedUser r.id n else m0) = m0 := by simp [hc0]
          rw [hid] at hmn
          exact absurd hmn hc0
      rw [hsave]

/-- C4: notify is idempotent: a repeat call with the same arguments leaves
the persisted notification state exactly as after the first call. -/
theorem claim4_notify_idempotent (db : DB) (u r : User) (f : Filters)
    (hwf : WF db) :
    (Notification.notify (Notification.notify db u r f).1 u r f).1
      = (Notification.notify db u r f).1 := by
  cases hstep : Notification.notifyTr db u r f with
  | ok db1 =>
    rw [notify_ok hstep]
    show (Notification.notify db1 u r f).1 = db1
    rw [notify_ok (notifyTr_fix hwf hstep)]
  | error e =>
    rw [notify_error hstep]
    show (Notification.notify db u r f).1 = db
    rw [notify_error hstep]

/-- Witness for C4 on a concrete empty table. -/
theorem claim4_witness :
    WF exDB0
    ∧ (Notification.notify (Notification.notify exDB0 exU1 exU2 exF).1 exU1 exU2 exF).1
      = (Notification.notify exDB0 exU1 exU2 exF).1 :=
  ⟨by decide, claim4_notify_idempotent exDB0 exU1 exU2 exF (by decide)⟩

/-! ### Claim C1 -/

theorem notify_keyCount {db : DB} {u r : User} {f : Filters} (hwf : WF db)
    (hri : f.related_import = none) (uid0 : Nat) (ty : String)
    (sid iid : Option Nat) :
    keyCount (Notification.notify db u r f).1 uid0 ty sid iid
      ≤ max 1 (keyCount db uid0 ty sid iid) := by
  cases hstep : Notification.notifyTr db u r f with
  | ok db1 =>
    rw [notify_ok hstep]
    exact notifyTr_keyCount hwf hri hstep uid0 ty sid iid
  | error e =>
    rw [notify_error hstep]
    exact Nat.le_max_right 1 _

theorem mentionBody_keyCount {db db' : DB} {st : Status} (hwf : WF db)
    (h : mentionBody db st = .ok db') (uid0 : Nat) (ty : String)
    (sid iid : Option Nat) :
    keyCount db' uid0 ty sid iid ≤ max 1 (keyCount db uid0 ty sid iid) := by
  unfold mentionBody at h
  cases hr : replyStep db st with
  | error e => rw [hr] at h; cases h
  | ok db1 =>
    rw [hr] at h
    have h1 := replyStep_keyCount hwf hr uid0 ty sid iid
    have hwf1 := replyStep_wf hwf hr
    have h2 := (mentionLoop_wf_keyCount st uid0 ty sid iid st.mention_users db1 db' hwf1 h).2
    exact max1_chain h1 h2

theorem mention_handler_keyCount (db : DB) (st : Status) (hwf : WF db)
    (uid0 : Nat) (ty : String) (sid iid : Option Nat) :
    keyCount (notify_user_on_mention db st) uid0 ty sid iid
      ≤ max 1 (keyCount db uid0 ty sid iid) := by
  unfold notify_user_on_mention
  by_cases hdel : st.deleted = true
  · rw [if_pos hdel]
    refine le_trans ?_ (Nat.le_max_right 1 (keyCount db uid0 ty sid iid))
    show ((db.notifications.filter (fun n => !(n.related_status == some st.id))).filter
        (keyPred uid0 ty sid iid)).length
      ≤ (db.notifications.filter (keyPred uid0 ty sid iid)).length
    exact ((List.filter_sublist db.notifications).filter (keyPred uid0 ty sid iid)).length_le
  · rw [if_neg hdel]
    cases hb : mentionBody db st with
    | ok db2 =>
      exact mentionBody_keyCount hwf hb uid0 ty sid iid
    | error e =>
      exact Nat.le_max_right 1 _

/-- C1 amended: the FAVORITE, REPLY, MENTION, BOOST and REPORT reactions go
through get-or-create, so for every (user, type, related-status,
related-import) key the row count after the reaction is at most the greater
of one and its previous value: a repeat event aggregates into the existing
record instead of creating a second one.  The IMPORT reaction does not have
this property (see the counterexample): it creates a fresh record on every
completing save. -/
theorem claim1_amended (db : DB) (hwf : WF db) (uid0 : Nat) (ty : String)
    (sid iid : Option Nat) :
    (∀ fav : Favorite, keyCount (notify_on_fav db fav) uid0 ty sid iid
        ≤ max 1 (keyCount db uid0 ty sid iid))
    ∧ (∀ st : Status, keyCount (notify_user_on_mention db st) uid0 ty sid iid
        ≤ max 1 (keyCount db uid0 ty sid iid))
    ∧ (∀ b : Boost, keyCount (notify_user_on_boost db b) uid0 ty sid iid
        ≤ max 1 (keyCount db uid0 ty sid iid))
    ∧ (∀ (users : List User) (rp : Report),
        keyCount (notify_admins_on_report users db rp).1 uid0 ty sid iid
          ≤ max 1 (keyCount db uid0 ty sid iid)) := by
  refine ⟨?_, ?_, ?_, ?_⟩
  · intro fav
    unfold notify_on_fav
    exact notify_keyCount hwf rfl uid0 ty sid iid
  · intro st
    exact mention_handler_keyCount db st hwf uid0 ty sid iid
  · intro b
    unfold notify_user_on_boost
    by_cases hguard : (!b.boosted_status.user.is_local
        || b.boosted_status.user.id == b.user.id) = true
    · rw [if_pos hguard]
      exact Nat.le_max_right 1 _
    · rw [if_neg hguard]
      exact notify_keyCount hwf rfl uid0 ty sid iid
  · intro users rp
    unfold notify_admins_on_report
    cases hloop : reportLoop rp.id (users.filter isAdminUser) db with
    | ok db2 =>
      exact reportLoop_keyCount rp.id uid0 ty sid iid (users.filter isAdminUser)
        db db2 hwf hloop
    | error e =>
      exact Nat.le_max_right 1 _

def exJob : ImportJob := { id := 7, user := exU1, complete := true }

/-- C1 counterexample: the IMPORT reaction calls create, not get-or-create.
Two completing saves of the same import job leave the same user with two
IMPORT notification records for that one job, so the module does not
maintain at most one record per (user, type, related-object) combination for
IMPORT events. -/
theorem claim1_counterexample :
    keyCount (notify_user_on_import_complete
        (notify_user_on_import_complete exDB0 exJob ["complete"]) exJob ["complete"])
      exU1.id "IMPORT" none (some 7) = 2 := by decide

def exStatus : Status :=
  { id := 5, user := exU1, deleted := false, reply_parent := none, mention_users := [] }

def exFav : Favorite := { user := exU2, status := exStatus }

/-- Witness for C1 amended: the favorite reaction on a concrete empty table
keeps every key at no more than one row. -/
theorem claim1_witness :
    WF exDB0
    ∧ keyCount (notify_on_fav exDB0 exFav) exU1.id "FAVORITE" (some 5) none
      ≤ max 1 (keyCount exDB0 exU1.id "FAVORITE" (some 5) none) :=
  ⟨by decide,
    (claim1_amended exDB0 (by decide) exU1.id "FAVORITE" (some 5) none).1 exFav⟩

/-! ### Claim C7 -/

theorem nfPred_false_of_type {n : Notification} {uid : Nat} {ty t : String}
    {sid : Nat} (h : n.notification_type = t) (hne : ¬ t = ty) :
    nfPred uid ty sid n = false := by
  unfold nfPred
  simp [h, hne]

theorem nfPred_false_of_user {n : Notification} {uid uid2 : Nat} {ty : String}
    {sid : Nat} (h : n.user = uid2) (hne : ¬ uid2 = uid) :
    nfPred uid ty sid n = false := by
  unfold nfPred
  simp [h, hne]

/-- C7: in the status-save reaction, a mentioned user who is the reply
parent's author, or who is not local, gets no MENTION notification about the
status (their MENTION rows for it are untouched); and the REPLY notification
reaches the reply parent's author only when that author is local and is not
the status's own author (otherwise their REPLY rows for the status are
untouched). -/
theorem claim7_mention_suppression (db : DB) (st : Status) (hwf : WF db)
    (hdel : st.deleted = false)
    (hnodup : (st.mention_users.map (fun m => m.id)).Nodup) :
    (∀ m ∈ st.mention_users,
      (m.is_local = false ∨ ∃ p, st.reply_parent = some p ∧ m.id = p.user.id) →
      (notify_user_on_mention db st).notifications.filter (nfPred m.id "MENTION" st.id)
        = db.notifications.filter (nfPred m.id "MENTION" st.id))
    ∧ (∀ p, st.reply_parent = some p →
      (p.user.is_local = false ∨ p.user.id = st.user.id) →
      (notify_user_on_mention db st).notifications.filter (nfPred p.user.id "REPLY" st.id)
        = db.notifications.filter (nfPred p.user.id "REPLY" st.id)) := by
  unfold notify_user_on_mention
  rw [if_neg (by simp [hdel])]
  cases hb : mentionBody db st with
  | error e => exact ⟨fun m hm hr => rfl, fun p hp hr => rfl⟩
  | ok db' =>
    unfold mentionBody at hb
    cases hrs : replyStep db st with
    | error e => rw [hrs] at hb; cases hb
    | ok db1 =>
      rw [hrs] at hb
      have hwf1 : WF db1 := replyStep_wf hwf hrs
      constructor
      · intro m hm hreason
        have hskipm : skipMention st m = true := by
          unfold skipMention
          rcases hreason with hl | ⟨p, hp, hid⟩
          · simp [hl]
          · rw [hp]
            simp [hid]
        have hmqL : ∀ m' ∈ st.mention_users, skipMention st m' = false →
            ∀ n, matchesFilter n m'.id
              { notification_type := some "MENTION", related_status := some st.id }
                = true →
            nfPred m.id "MENTION" st.id n = false := by
          intro m' hm' hskip' n hmatch
          have hne : ¬ m'.id = m.id := by
            intro hid
            have hmm : m' = m := nodup_map_inj hnodup hm' hm hid
            rw [hmm, hskipm] at hskip'
            cases hskip'
          exact nfPred_false_of_user (matchesFilter_user hmatch) hne
        have hmqR : ∀ p, st.reply_parent = some p →
            ∀ n, matchesFilter n p.user.id
              { related_status := some st.id, notification_type := some "REPLY" }
                = true →
            nfPred m.id "MENTION" st.id n = false := by
          intro p hp n hmatch
          exact nfPred_false_of_type
            (matchesFilter_type
              (f := { related_status := some st.id, notification_type := some "REPLY" })
              rfl hmatch) (by decide)
        have hloopeq := mentionLoop_filter_eq st
          (q := nfPred m.id "MENTION" st.id) (fun _ _ => rfl)
          st.mention_users db1 db' hwf1 hb hmqL
        have hreplyeq := replyStep_filter_eq
          (q := nfPred m.id "MENTION" st.id) hwf hrs (fun _ _ => rfl) hmqR
        show db'.notifications.filter (nfPred m.id "MENTION" st.id)
          = db.notifications.filter (nfPred m.id "MENTION" st.id)
        rw [hloopeq, hreplyeq]
      · intro p hp hreason
        have hguard : (!(p.user.id == st.user.id) && p.user.is_local) = false := by
          rcases hreason with hl | hid
          · simp [hl]
          · simp [hid]
        have hdb1 : db1 = db := by
          have hsome : replyStep db st = _ := replyStep_some hp
          rw [hrs] at hsome
          rw [if_neg (by simp [hguard])] at hsome
          simpa using hsome
        subst hdb1
        have hmqM : ∀ m' ∈ st.mention_users, skipMention st m' = false →
            ∀ n, matchesFilter n m'.id
              { notification_type := some "MENTION", related_status := some st.id }
                = true →
            nfPred p.user.id "REPLY" st.id n = false := by
          intro m' hm' hskip' n hmatch
          exact nfPred_false_of_type
            (matchesFilter_type
              (f := { notification_type := some "MENTION", related_status := some st.id })
              rfl hmatch) (by decide)
        have hloopeq := mentionLoop_filter_eq st
          (q := nfPred p.user.id "REPLY" st.id) (fun _ _ => rfl)
          st.mention_users db1 db' hwf1 hb hmqM
        show db'.notifications.filter (nfPred p.user.id "REPLY" st.id)
          = db1.notifications.filter (nfPred p.user.id "REPLY" st.id)
        rw [hloopeq]

def exStM : Status :=
  { id := 5, user := exU1, deleted := false, reply_parent := none,
    mention_users := [exU4] }

/-- Witness for C7: a non-local mentioned user on a concrete status save
gets no MENTION notification. -/
theorem claim7_witness :
    WF exDB0
    ∧ (notify_user_on_mention exDB0 exStM).notifications.filter
        (nfPred exU4.id "MENTION" exStM.id)
      = exDB0.notifications.filter (nfPred exU4.id "MENTION" exStM.id) :=
  ⟨by decide,
    (claim7_mention_suppression exDB0 exStM (by decide) rfl (by decide)).1
      exU4 (by decide) (Or.inl rfl)⟩

/-! ### Claim C8 -/

def exReport : Report := { id := 9 }

/-- C8: saving a report fans out to exactly the admin/moderator users: every
user with the moderate_user or moderate_post permission or the superuser
flag ends up with a REPORT notification holding the report in its
related_reports set, and the notification rows of every other user are
untouched. -/
theorem claim8_report_fanout (users : List User) (db : DB) (rp : Report)
    (db' : DB) (hwf : WF db)
    (h : notify_admins_on_report users db rp = (db', none)) :
    (∀ u ∈ users, isAdminUser u = true →
      ∃ n ∈ db'.notifications, n.user = u.id ∧ n.notification_type = "REPORT"
        ∧ rp.id ∈ n.related_reports)
    ∧ (∀ uid : Nat, (∀ u ∈ users, isAdminUser u = true → ¬ u.id = uid) →
      db'.notifications.filter (fun n => n.user == uid)
        = db.notifications.filter (fun n => n.user == uid)) := by
  unfold notify_admins_on_report at h
  cases hloop : reportLoop rp.id (users.filter isAdminUser) db with
  | error e =>
    rw [hloop] at h
    simp at h
  | ok db2 =>
    rw [hloop] at h
    simp only [Prod.mk.injEq] at h
    obtain ⟨hdb, _⟩ := h
    subst hdb
    constructor
    · intro u hu hadmin
      have hmem : u ∈ users.filter isAdminUser := List.mem_filter.mpr ⟨hu, hadmin⟩
      obtain ⟨n, hn, h1, h2, h3⟩ := reportLoop_establishes rp.id
        (users.filter isAdminUser) db db2 hwf hloop u hmem
      exact ⟨n, hn, h1, h2, h3⟩
    · intro uid hne
      apply reportLoop_user_filter rp.id uid (users.filter isAdminUser) db db2 hwf hloop
      intro a ha
      have hmem := List.mem_filter.mp ha
      exact hne a hmem.1 hmem.2

def exDB8 : DB :=
  { notifications :=
      [{ nid := 0, user := 3, read := false, notification_type := "REPORT"
         related_users := [], related_groups := [], related_status := none
         related_import := none, related_list_items := [], related_reports := [9] }]
    next_id := 1 }

/-- Witness for C8: one concrete superuser receives the REPORT notification
holding the report. -/
theorem claim8_witness :
    notify_admins_on_report [exU3] exDB0 exReport = (exDB8, none)
    ∧ ∃ n ∈ exDB8.notifications, n.user = exU3.id
      ∧ n.notification_type = "REPORT" ∧ exReport.id ∈ n.related_reports :=
  ⟨by decide,
    (claim8_report_fanout [exU3] exDB0 exReport exDB8 (by decide) (by decide)).1
      exU3 (by decide) (by decide)⟩
